import Mathlib

/-!
Verification of the `logger` Go package (github.com/oleg-safonov/logger).

The package is shallowly embedded: bytes are `Nat` values, byte slices are
`List Nat`, the fixed-size formatting buffer is a list of fixed length with a
cursor, the buffer-index channel is a FIFO list, and the effectful parts of
`output`, `Reopen` and `New` are pure functions that also return the list of
observable events they perform (pool acquire/release, sink writes, file
open/close, global side effects).  Machine `byte` values are modelled as `Nat`;
no arithmetic in the package overflows a byte.
-/

namespace GoLogger

/-- Byte sequence of a string literal, as in Go's `[]byte("...")`. -/
def strBytes (s : String) : List Nat := s.data.map Char.toNat

/- Level constants, from the `iota` block of logger.go. -/

def FatalLevel : Nat := 0
def ErrorLevel : Nat := 1
def WarnLevel : Nat := 2
def InfoLevel : Nat := 3
def DebugLevel : Nat := 4
def TraceLevel : Nat := 5

def defaulBufferSize : Nat := 4096
def defaulBuffers : Nat := 1000

/-- The `levelStrings` map built by `init()`: defined exactly on the six level
constants.  `none` models a missing key. -/
def levelStringsMap (level : Nat) : Option (List Nat) :=
  if level = FatalLevel then some (strBytes "FATAL: ")
  else if level = ErrorLevel then some (strBytes "ERROR: ")
  else if level = WarnLevel then some (strBytes "WARNING: ")
  else if level = InfoLevel then some (strBytes "INFO: ")
  else if level = DebugLevel then some (strBytes "DEBUG: ")
  else if level = TraceLevel then some (strBytes "TRACE: ")
  else none

/-- Reading `levelStrings[level]` as an expression: a missing key yields the
zero value `nil`, i.e. the empty byte slice. -/
def levelStrings (level : Nat) : List Nat :=
  (levelStringsMap level).getD []

/- The fixed-capacity formatting buffer (`type buffer struct`). -/

structure buffer where
  buf : List Nat
  pos : Nat
deriving Repr, DecidableEq

/-- Go's zero value for `buffer`: a zeroed array and `pos = 0`. -/
def buffer.mk0 : buffer :=
  { buf := List.replicate defaulBufferSize 0, pos := 0 }

def buffer.clear (b : buffer) : buffer :=
  { b with pos := 0 }

def buffer.get (b : buffer) : List Nat :=
  b.buf.take b.pos

/-- `append` from logger.go: copy as many bytes as fit, advance the cursor,
silently truncate the rest. -/
def buffer.append (b : buffer) (data : List Nat) : buffer :=
  let l := if b.pos + data.length > defaulBufferSize
           then defaulBufferSize - b.pos else data.length
  if l > 0 then
    { buf := b.buf.take b.pos ++ data.take l ++ b.buf.drop (b.pos + l),
      pos := b.pos + l }
  else b

/-- Well-formedness of a buffer: the backing array has the declared fixed size
and the cursor is inside it.  Holds for the zero value and is preserved by
every operation. -/
def buffer.wf (b : buffer) : Prop :=
  b.buf.length = defaulBufferSize ∧ b.pos ≤ defaulBufferSize

instance (b : buffer) : Decidable b.wf := by
  unfold buffer.wf; infer_instance

/- The buffer pool: `bufStack chan int` plus the conceptual set of indices
currently checked out by callers of `output`. -/

structure Pool where
  channel : List Nat
  checkedOut : List Nat
deriving Repr, DecidableEq

/-- The seeding loop of `New`: the channel holds the indices `0..n-1`, nothing
is checked out. -/
def Pool.init (n : Nat) : Pool :=
  { channel := List.range n, checkedOut := [] }

/-- `i := <-l.bufStack`: take the first available index (a channel is FIFO);
`none` models the blocking case of an empty channel. -/
def Pool.acquire (p : Pool) : Option (Nat × Pool) :=
  match p.channel with
  | [] => none
  | i :: rest => some (i, { channel := rest, checkedOut := i :: p.checkedOut })

/-- `l.bufStack <- i`: push the index back onto the channel. -/
def Pool.release (p : Pool) (i : Nat) : Pool :=
  { channel := p.channel ++ [i], checkedOut := p.checkedOut.erase i }

/-- The pool invariant from the spec: channel contents and checked-out indices
together are exactly the indices `0..n-1`, each once. -/
def Pool.inv (n : Nat) (p : Pool) : Prop :=
  (p.channel ++ p.checkedOut).Perm (List.range n)

/- The logger state visible to the modelled operations.  The writer, the
mutexes and the two channels are represented by the event traces the
operations return; `file` and `sinkTarget` are abstract handle identities. -/

structure Logger where
  currentLevel : Nat
  timeFormat : String
  timeStr : List Nat
  filename : String
  file : Nat
  sinkTarget : Nat
deriving Repr, DecidableEq

/-- Observable events of one `output` call. -/
inductive Event where
  | acquire (i : Nat)
  | write (bs : List Nat)
  | crash
  | release (i : Nat)
  | blocked
deriving Repr, DecidableEq

/-- Lines 220-223 of `output`: clear the acquired slot, then append the cached
timestamp, the level's fixed string, and the caller's payload. -/
def composeBuffer (slot : buffer) (timeStr : List Nat) (level : Nat)
    (data : List Nat) : buffer :=
  ((slot.clear.append timeStr).append (levelStrings level)).append data

/-- Lines 225-229 of `output`: look at the last composed byte
(`get()[len(get())-1]`), append a newline when it is not `'\n'`, and hand the
occupied prefix to the sink.  When the composition is empty the Go index
`len-1` is out of range and the call panics: the `crash` event. -/
def writeEvents (slot : buffer) (timeStr : List Nat) (level : Nat)
    (data : List Nat) : List Event :=
  match (composeBuffer slot timeStr level data).get[
      (composeBuffer slot timeStr level data).get.length - 1]? with
  | none => [Event.crash]
  | some c =>
      if c ≠ 10
      then [Event.write (((composeBuffer slot timeStr level data).append
        (strBytes "\n")).get)]
      else [Event.write (composeBuffer slot timeStr level data).get]

/-- `Logger.output`: filter on the level, take a buffer index from the channel,
compose and write, and push the index back — the deferred release runs on
every exit path, a panic included.  `acquire` returning `none` means the
channel is empty and the Go call would block; the pool is then unchanged.
`slot` is the content of `l.buffers[i]` for the acquired index `i`. -/
def output (l : Logger) (p : Pool) (slot : buffer) (level : Nat)
    (data : List Nat) : List Event × Pool :=
  if level > l.currentLevel then ([], p)
  else
    match p.acquire with
    | none => ([Event.blocked], p)
    | some (i, p1) =>
        (Event.acquire i :: (writeEvents slot l.timeStr level data
          ++ [Event.release i]), p1.release i)

/- The six public entry points. -/

def LogFatal (l : Logger) (p : Pool) (slot : buffer) (data : List Nat) :
    List Event × Pool := output l p slot FatalLevel data

def LogError (l : Logger) (p : Pool) (slot : buffer) (data : List Nat) :
    List Event × Pool := output l p slot ErrorLevel data

def LogWarn (l : Logger) (p : Pool) (slot : buffer) (data : List Nat) :
    List Event × Pool := output l p slot WarnLevel data

def LogInfo (l : Logger) (p : Pool) (slot : buffer) (data : List Nat) :
    List Event × Pool := output l p slot InfoLevel data

def LogDebug (l : Logger) (p : Pool) (slot : buffer) (data : List Nat) :
    List Event × Pool := output l p slot DebugLevel data

def LogTrace (l : Logger) (p : Pool) (slot : buffer) (data : List Nat) :
    List Event × Pool := output l p slot TraceLevel data

/-- `SetLevel`: reject a value that is not a key of `levelStrings`, leaving the
state alone; otherwise store it as the new threshold.  The pair holds the
returned error (if any) and the logger state after the call. -/
def SetLevel (l : Logger) (level : Nat) : Option String × Logger :=
  match levelStringsMap level with
  | none => (some ("Unknown log level " ++ toString level), l)
  | some _ => (none, { l with currentLevel := level })

/-- Observable events of one `Reopen` call. -/
inductive RotEvent where
  | openOk (f : Nat)
  | openFailed
  | resetSink (f : Nat)
  | closeFile (f : Nat)
deriving Repr, DecidableEq

/-- `Reopen`: try to open the configured path (the environment's outcome is
the `openResult` argument).  On failure return the error with the state
untouched; on success redirect the sink to the new handle, close the previous
one, and record the new handle. -/
def Reopen (l : Logger) (openResult : Option Nat) :
    List RotEvent × Logger × Option String :=
  match openResult with
  | none => ([RotEvent.openFailed], l, some "OpenError")
  | some f =>
      ([RotEvent.openOk f, RotEvent.resetSink f, RotEvent.closeFile l.file],
       { l with sinkTarget := f, file := f }, none)

/-- Construction parameters.  The two callback fields are opaque function
values in Go; only their presence is modelled. -/
structure LoggerConfig where
  Filename : String
  hasSkipHandler : Bool
  hasWriteErrorHandler : Bool
deriving Repr, DecidableEq

/-- Process-wide side effects of `New`. -/
inductive SideEffect where
  | setGlobalLogOutput
  | startUpdateTime
  | startSignalLoop
deriving Repr, DecidableEq

/-- `New`: open the file (outcome `openResult`); on success build the logger
with threshold `InfoLevel` and the freshly formatted time `now`, seed the
index channel with `0..defaulBuffers-1`, redirect the global `log` package
output to this logger's writer, and start the two background goroutines. -/
def New (config : LoggerConfig) (openResult : Option Nat) (now : List Nat) :
    Option (Logger × Pool × List SideEffect) :=
  match openResult with
  | none => none
  | some f =>
      some ({ currentLevel := InfoLevel,
              timeFormat := "2006.01.02 15:04:05.00",
              timeStr := now,
              filename := config.Filename,
              file := f, sinkTarget := f },
            Pool.init defaulBuffers,
            [SideEffect.setGlobalLogOutput, SideEffect.startUpdateTime,
             SideEffect.startSignalLoop])

/-- The buffer of `TestBuffer` after `n` one-byte appends of `"0"`. -/
def appendZeros : Nat → buffer
  | 0 => buffer.mk0
  | n + 1 => (appendZeros n).append (strBytes "0")

/-- The buffer of `TestBuffer`: `defaulBufferSize - 1` appends of `"0"`, then
one append of `"12"`. -/
def testBuffer : buffer :=
  (appendZeros (defaulBufferSize - 1)).append (strBytes "12")

/-- A payload larger than the buffer capacity. -/
def bigPayload : List Nat := List.replicate defaulBufferSize 48

/-- A concrete logger state used to instantiate universally quantified
theorems. -/
def sampleLogger : Logger :=
  { currentLevel := InfoLevel, timeFormat := "2006.01.02 15:04:05.00",
    timeStr := strBytes "2026.10.11 00:00:00.00 ", filename := "a.log",
    file := 1, sinkTarget := 1 }

/- ------------------------------------------------------------------ -/
/- Theorems.                                                          -/
/- ------------------------------------------------------------------ -/

theorem buffer.wf_mk0 : buffer.mk0.wf := by
  constructor <;> simp [buffer.mk0]

theorem buffer.wf_clear {b : buffer} (h : b.wf) : b.clear.wf :=
  ⟨h.1, Nat.zero_le _⟩

theorem buffer.get_clear (b : buffer) : b.clear.get = [] := by
  simp [buffer.clear, buffer.get]

/-- The cursor after `append`: advanced by exactly
`min (data.length) (capacity - pos)`. -/
theorem buffer.append_pos (b : buffer) (data : List Nat)
    (hb : b.pos ≤ defaulBufferSize) :
    (b.append data).pos = b.pos + min data.length (defaulBufferSize - b.pos) := by
  simp only [buffer.append]
  by_cases h1 : defaulBufferSize < b.pos + data.length
  · simp only [if_pos h1]
    by_cases h2 : 0 < defaulBufferSize - b.pos
    · simp only [if_pos h2]; omega
    · simp only [if_neg h2]; omega
  · simp only [if_neg h1]
    by_cases h2 : 0 < data.length
    · simp only [if_pos h2]; omega
    · simp only [if_neg h2]; omega

/-- The occupied prefix after `append`: the old content followed by as much of
`data` as fits in the remaining capacity. -/
theorem buffer.append_get (b : buffer) (data : List Nat) (hb : b.wf) :
    (b.append data).get = b.get ++ data.take (defaulBufferSize - b.pos) := by
  obtain ⟨hlen, hpos⟩ := hb
  simp only [buffer.append, buffer.get]
  by_cases h1 : defaulBufferSize < b.pos + data.length
  · simp only [if_pos h1]
    by_cases h2 : 0 < defaulBufferSize - b.pos
    · simp only [if_pos h2]
      rw [List.take_left'
        (show (List.take b.pos b.buf ++ List.take (defaulBufferSize - b.pos) data).length
            = b.pos + (defaulBufferSize - b.pos) from by
          simp only [List.length_append, List.length_take, hlen]; omega)]
    · simp only [if_neg h2]
      have h0 : defaulBufferSize - b.pos = 0 := by omega
      simp [h0]
  · simp only [if_neg h1]
    by_cases h2 : 0 < data.length
    · simp only [if_pos h2]
      rw [List.take_length,
        List.take_of_length_le (show data.length ≤ defaulBufferSize - b.pos by omega),
        List.take_left'
          (show (List.take b.pos b.buf ++ data).length = b.pos + data.length from by
            simp only [List.length_append, List.length_take, hlen]; omega)]
    · simp only [if_neg h2]
      have h0 : data = [] := List.eq_nil_of_length_eq_zero (by omega)
      simp [h0]

/-- `append` never grows the backing array and keeps the cursor in bounds. -/
theorem buffer.append_wf (b : buffer) (data : List Nat) (hb : b.wf) :
    (b.append data).wf := by
  obtain ⟨hlen, hpos⟩ := hb
  constructor
  · simp only [buffer.append]
    by_cases h1 : defaulBufferSize < b.pos + data.length
    · simp only [if_pos h1]
      by_cases h2 : 0 < defaulBufferSize - b.pos
      · simp only [if_pos h2]
        simp [List.length_take, List.length_drop, hlen]; omega
      · simpa only [if_neg h2] using hlen
    · simp only [if_neg h1]
      by_cases h2 : 0 < data.length
      · simp only [if_pos h2]
        simp [List.length_take, List.length_drop, hlen]; omega
      · simpa only [if_neg h2] using hlen
  · rw [buffer.append_pos b data hpos]; omega

theorem levelStrings_length_pos {level : Nat} (h : level ≤ 5) :
    0 < (levelStrings level).length := by
  interval_cases level <;> decide

theorem buffer.get_length (b : buffer) (hb : b.wf) : b.get.length = b.pos := by
  rw [buffer.get, List.length_take, hb.1]
  exact Nat.min_eq_left hb.2

theorem composeBuffer_wf (slot : buffer) (ts : List Nat) (level : Nat)
    (data : List Nat) (h : slot.wf) : (composeBuffer slot ts level data).wf :=
  buffer.append_wf _ data
    (buffer.append_wf _ (levelStrings level)
      (buffer.append_wf _ ts (buffer.wf_clear h)))

/-- After the three appends of `output` the cursor is positive: the level
string of any of the six levels is non-empty and the capacity is positive. -/
theorem composeBuffer_pos_pos (slot : buffer) (ts : List Nat) (level : Nat)
    (data : List Nat) (hslot : slot.wf) (hlevel : level ≤ 5) :
    0 < (composeBuffer slot ts level data).pos := by
  have hcap : defaulBufferSize = 4096 := rfl
  have hpre := levelStrings_length_pos hlevel
  have h0 : slot.clear.wf := buffer.wf_clear hslot
  have h1 : (slot.clear.append ts).wf := buffer.append_wf _ ts h0
  have h2 : ((slot.clear.append ts).append (levelStrings level)).wf :=
    buffer.append_wf _ _ h1
  have e1 := buffer.append_pos (slot.clear.append ts) (levelStrings level) h1.2
  have e2 := buffer.append_pos ((slot.clear.append ts).append (levelStrings level))
    data h2.2
  unfold composeBuffer
  rw [e2, e1]
  have := h1.2
  omega

/-- When timestamp, level string and payload fit in the buffer, the composed
content is their concatenation. -/
theorem composeBuffer_get_fit (slot : buffer) (ts : List Nat) (level : Nat)
    (data : List Nat) (hslot : slot.wf)
    (hfit : ts.length + (levelStrings level).length + data.length
      ≤ defaulBufferSize) :
    (composeBuffer slot ts level data).get = ts ++ levelStrings level ++ data ∧
    (composeBuffer slot ts level data).pos
      = ts.length + (levelStrings level).length + data.length := by
  have h0 : slot.clear.wf := buffer.wf_clear hslot
  have g0 : slot.clear.get = [] := buffer.get_clear slot
  have p0 : slot.clear.pos = 0 := rfl
  have h1 : (slot.clear.append ts).wf := buffer.append_wf _ ts h0
  have p1 : (slot.clear.append ts).pos = ts.length := by
    rw [buffer.append_pos _ ts h0.2, p0]; omega
  have g1 : (slot.clear.append ts).get = ts := by
    rw [buffer.append_get _ ts h0, g0, p0, List.nil_append,
      List.take_of_length_le (show ts.length ≤ defaulBufferSize - 0 by omega)]
  have h2 : ((slot.clear.append ts).append (levelStrings level)).wf :=
    buffer.append_wf _ _ h1
  have p2 : ((slot.clear.append ts).append (levelStrings level)).pos
      = ts.length + (levelStrings level).length := by
    rw [buffer.append_pos _ _ h1.2, p1]; omega
  have g2 : ((slot.clear.append ts).append (levelStrings level)).get
      = ts ++ levelStrings level := by
    rw [buffer.append_get _ _ h1, g1, p1,
      List.take_of_length_le
        (show (levelStrings level).length ≤ defaulBufferSize - ts.length by omega)]
  have p3 : (composeBuffer slot ts level data).pos
      = ts.length + (levelStrings level).length + data.length := by
    unfold composeBuffer
    rw [buffer.append_pos _ data h2.2, p2]; omega
  have g3 : (composeBuffer slot ts level data).get
      = ts ++ levelStrings level ++ data := by
    unfold composeBuffer
    rw [buffer.append_get _ data h2, g2, p2,
      List.take_of_length_le (show data.length
        ≤ defaulBufferSize - (ts.length + (levelStrings level).length) by omega)]
  exact ⟨g3, p3⟩

/-- `writeEvents` performs exactly one event: a sink write or a panic. -/
theorem writeEvents_cases (slot : buffer) (ts : List Nat) (level : Nat)
    (data : List Nat) :
    writeEvents slot ts level data = [Event.crash] ∨
    ∃ bs, writeEvents slot ts level data = [Event.write bs] := by
  unfold writeEvents
  rcases hm : (composeBuffer slot ts level data).get[
      (composeBuffer slot ts level data).get.length - 1]? with _ | c
  · left; rfl
  · by_cases hc : c = 10
    · right; exact ⟨(composeBuffer slot ts level data).get, by simp [hc]⟩
    · right
      exact ⟨((composeBuffer slot ts level data).append (strBytes "\n")).get,
        by simp [hc]⟩

/-- Through any of the six entry points the composition is non-empty, so the
newline check indexes a valid position and a write always happens. -/
theorem writeEvents_eq_write (slot : buffer) (ts : List Nat) (level : Nat)
    (data : List Nat) (hslot : slot.wf) (hlevel : level ≤ 5) :
    ∃ bs, writeEvents slot ts level data = [Event.write bs] := by
  have hwf := composeBuffer_wf slot ts level data hslot
  have hpos := composeBuffer_pos_pos slot ts level data hslot hlevel
  have hlen0 : 0 < (composeBuffer slot ts level data).get.length := by
    rw [buffer.get_length _ hwf]; exact hpos
  have hidx : (composeBuffer slot ts level data).get.length - 1
      < (composeBuffer slot ts level data).get.length := by omega
  have hm := List.getElem?_eq_getElem hidx
  unfold writeEvents
  rw [hm]
  by_cases hc : (composeBuffer slot ts level data).get[
      (composeBuffer slot ts level data).get.length - 1] = 10
  · exact ⟨(composeBuffer slot ts level data).get, by simp [hc]⟩
  · exact ⟨((composeBuffer slot ts level data).append (strBytes "\n")).get,
      by simp [hc]⟩

/-- Reduction of `writeEvents` once the last composed byte is known. -/
theorem writeEvents_eq_of_getElem (slot : buffer) (ts : List Nat) (level : Nat)
    (data : List Nat) (c : Nat)
    (hm : (composeBuffer slot ts level data).get[
      (composeBuffer slot ts level data).get.length - 1]? = some c) :
    writeEvents slot ts level data =
      if c ≠ 10
      then [Event.write (((composeBuffer slot ts level data).append
        (strBytes "\n")).get)]
      else [Event.write (composeBuffer slot ts level data).get] := by
  unfold writeEvents
  rw [hm]

/-- Whatever `output` hands to the sink is the occupied prefix of a buffer of
the fixed capacity, hence at most `defaulBufferSize` bytes long. -/
theorem writeEvents_write_length (slot : buffer) (ts : List Nat) (level : Nat)
    (data : List Nat) (bs : List Nat) (hslot : slot.wf)
    (he : writeEvents slot ts level data = [Event.write bs]) :
    bs.length ≤ defaulBufferSize := by
  have hwf := composeBuffer_wf slot ts level data hslot
  have hgle : ∀ b' : buffer, b'.wf → b'.get.length ≤ defaulBufferSize :=
    fun b' h' => by rw [buffer.get_length b' h']; exact h'.2
  unfold writeEvents at he
  rcases hm : (composeBuffer slot ts level data).get[
      (composeBuffer slot ts level data).get.length - 1]? with _ | c
  · rw [hm] at he; exact absurd he (by simp)
  · rw [hm] at he
    by_cases hc : c = 10
    · simp only [hc, ne_eq, not_true_eq_false, if_false, List.cons.injEq,
        Event.write.injEq, and_true] at he
      rw [← he]; exact hgle _ hwf
    · simp only [ne_eq, hc, not_false_eq_true, if_true, List.cons.injEq,
        Event.write.injEq, and_true] at he
      rw [← he]; exact hgle _ (buffer.append_wf _ _ hwf)

/-- The pool after `output`: unchanged when the record is filtered or the
channel is empty; otherwise the head index makes a round trip back to the
tail of the channel. -/
theorem output_pool_shape (l : Logger) (p : Pool) (slot : buffer) (level : Nat)
    (data : List Nat) :
    (output l p slot level data).2 = p ∨
    ∃ i rest, p.channel = i :: rest ∧
      (output l p slot level data).2
        = { channel := rest ++ [i], checkedOut := p.checkedOut } := by
  unfold output
  by_cases h : l.currentLevel < level
  · left; simp [h]
  · rcases hc : p.channel with _ | ⟨i, rest⟩
    · left; simp [h, Pool.acquire, hc]
    · right
      refine ⟨i, rest, rfl, ?_⟩
      simp [h, Pool.acquire, hc, Pool.release]

/-- `output` preserves the pool invariant on every path. -/
theorem output_inv (n : Nat) (l : Logger) (p : Pool) (slot : buffer)
    (level : Nat) (data : List Nat) (h : Pool.inv n p) :
    Pool.inv n (output l p slot level data).2 := by
  rcases output_pool_shape l p slot level data with he | ⟨i, rest, hc, he⟩
  · rwa [he]
  · rw [he]
    unfold Pool.inv at h ⊢
    rw [hc] at h
    refine List.Perm.trans ?_ h
    exact (List.perm_append_singleton i rest).append_right p.checkedOut

/-- In the trace of one `output` call every acquired index is released exactly
once, on the write path and on the panic path alike. -/
theorem output_count_balance (l : Logger) (p : Pool) (slot : buffer)
    (level : Nat) (data : List Nat) (i : Nat) :
    (output l p slot level data).1.count (Event.acquire i)
      = (output l p slot level data).1.count (Event.release i) ∧
    (output l p slot level data).1.count (Event.acquire i) ≤ 1 := by
  unfold output
  by_cases h : l.currentLevel < level
  · simp [h]
  · rcases hc : p.channel with _ | ⟨j, rest⟩
    · simp [h, Pool.acquire, hc]
    · rcases writeEvents_cases slot l.timeStr level data with hw | ⟨bs, hw⟩ <;>
      · simp only [h, Pool.acquire, hc, hw, if_neg, ite_false, not_false_eq_true,
          List.count_cons, List.count_append, List.count_nil, beq_iff_eq]
        by_cases hij : i = j <;> simp [hij] <;> split <;> simp

/-- The invariant gives the spec's phrasing: the channel and the checked-out
set are duplicate-free and disjoint, and together hold all `n` indices. -/
theorem inv_disjoint (n : Nat) (p : Pool) (h : Pool.inv n p) :
    p.channel.Nodup ∧ p.checkedOut.Nodup ∧
    (∀ i, i ∈ p.channel → i ∉ p.checkedOut) ∧
    p.channel.length + p.checkedOut.length = n := by
  have hnd : (p.channel ++ p.checkedOut).Nodup :=
    h.nodup_iff.mpr (List.nodup_range n)
  rw [List.nodup_append] at hnd
  refine ⟨hnd.1, hnd.2.1, fun i hi hco => hnd.2.2 hi hco, ?_⟩
  have hlen := h.length_eq
  simpa using hlen

/-- After `n` one-byte appends of `"0"` on a fresh buffer the content is `n`
copies of the byte `'0'`. -/
theorem appendZeros_spec : ∀ n, n ≤ defaulBufferSize →
    (appendZeros n).wf ∧ (appendZeros n).pos = n ∧
    (appendZeros n).get = List.replicate n 48 := by
  intro n
  induction n with
  | zero =>
      intro _
      exact ⟨buffer.wf_mk0, rfl, by simp [appendZeros, buffer.mk0, buffer.get]⟩
  | succ k ih =>
      intro hk
      obtain ⟨hwf, hpos, hget⟩ := ih (by omega)
      have h1 : (strBytes "0").length = 1 := by decide
      refine ⟨buffer.append_wf _ _ hwf, ?_, ?_⟩
      · show ((appendZeros k).append (strBytes "0")).pos = k + 1
        rw [buffer.append_pos _ _ hwf.2, hpos, h1]
        omega
      · show ((appendZeros k).append (strBytes "0")).get = List.replicate (k + 1) 48
        rw [buffer.append_get _ _ hwf, hget, hpos]
        have ht : (strBytes "0").take (defaulBufferSize - k) = [48] := by
          rw [List.take_of_length_le (by rw [h1]; omega)]
          decide
        rw [ht, List.replicate_succ']

/-- The scenario of `TestBuffer`: the last five bytes are `"00001"`. -/
theorem testBuffer_last5 :
    testBuffer.get.drop (defaulBufferSize - 5) = strBytes "00001" := by
  obtain ⟨hwf, hpos, hget⟩ := appendZeros_spec (defaulBufferSize - 1) (by omega)
  unfold testBuffer
  rw [buffer.append_get _ _ hwf, hget, hpos]
  have h2 : (strBytes "12").take (defaulBufferSize - (defaulBufferSize - 1))
      = [49] := by decide
  rw [h2, List.drop_append_eq_append_drop, List.drop_replicate]
  simp only [List.length_replicate]
  decide

/-- Claim C1: a record is emitted (a buffer index is acquired and the bytes
are handed to the sink) iff its level is at most the current threshold; when
the level is above the threshold the call returns at once with no event and
the pool untouched — the filter runs before the pool acquire. -/
theorem output_filter_spec (l : Logger) (p : Pool) (slot : buffer)
    (level : Nat) (data : List Nat) (hlevel : level ≤ 5) (hslot : slot.wf) :
    (l.currentLevel < level → output l p slot level data = ([], p)) ∧
    (level ≤ l.currentLevel → p.channel ≠ [] →
      ∃ i bs, (output l p slot level data).1
        = [Event.acquire i, Event.write bs, Event.release i]) := by
  constructor
  · intro h
    unfold output
    simp [h]
  · intro h hch
    rcases hc : p.channel with _ | ⟨i, rest⟩
    · exact absurd hc hch
    · obtain ⟨bs, hw⟩ :=
        writeEvents_eq_write slot l.timeStr level data hslot hlevel
      refine ⟨i, bs, ?_⟩
      unfold output
      rw [if_neg (by omega)]
      simp [Pool.acquire, hc, hw]

theorem output_filter_spec_witness :
    output sampleLogger (Pool.init defaulBuffers) buffer.mk0 DebugLevel
      (strBytes "LogDebug") = ([], Pool.init defaulBuffers) :=
  (output_filter_spec sampleLogger (Pool.init defaulBuffers) buffer.mk0
    DebugLevel (strBytes "LogDebug") (by decide) buffer.wf_mk0).1 (by decide)

/-- Claim C2 (amended): when timestamp, level string, payload and the possible
trailing newline fit within the buffer capacity, the bytes handed to the sink
are exactly timestamp ++ level string ++ payload, with a newline appended iff
the composition does not already end with one.  (As stated for every payload
the claim fails: an oversized record is silently truncated to the capacity —
see the counterexample.) -/
theorem output_format_fit (slot : buffer) (ts : List Nat) (level : Nat)
    (data : List Nat) (hslot : slot.wf) (hlevel : level ≤ 5)
    (hfit : ts.length + (levelStrings level).length + data.length + 1
      ≤ defaulBufferSize) :
    writeEvents slot ts level data =
      [Event.write (if (ts ++ levelStrings level ++ data).getLast? = some 10
        then ts ++ levelStrings level ++ data
        else (ts ++ levelStrings level ++ data) ++ strBytes "\n")] := by
  obtain ⟨g3, p3⟩ := composeBuffer_get_fit slot ts level data hslot (by omega)
  have hwf := composeBuffer_wf slot ts level data hslot
  have hpos := composeBuffer_pos_pos slot ts level data hslot hlevel
  have hlen0 : 0 < (composeBuffer slot ts level data).get.length := by
    rw [buffer.get_length _ hwf]; exact hpos
  have hidx : (composeBuffer slot ts level data).get.length - 1
      < (composeBuffer slot ts level data).get.length := by omega
  have hm := List.getElem?_eq_getElem hidx
  have hnl : (strBytes "\n").length = 1 := by decide
  have happ : ((composeBuffer slot ts level data).append (strBytes "\n")).get
      = (ts ++ levelStrings level ++ data) ++ strBytes "\n" := by
    rw [buffer.append_get _ _ hwf, g3, p3,
      List.take_of_length_le (by rw [hnl]; omega)]
  have hlast : (ts ++ levelStrings level ++ data).getLast?
      = some ((composeBuffer slot ts level data).get[
          (composeBuffer slot ts level data).get.length - 1]) := by
    rw [← g3, List.getLast?_eq_getElem?]
    exact hm
  rw [writeEvents_eq_of_getElem slot ts level data _ hm]
  by_cases hc : (composeBuffer slot ts level data).get[
      (composeBuffer slot ts level data).get.length - 1] = 10
  · have hsome : (ts ++ levelStrings level ++ data).getLast? = some 10 := by
      rw [hlast, hc]
    rw [if_neg (by simp [hc]), if_pos hsome, g3]
  · have hne : ¬ (ts ++ levelStrings level ++ data).getLast? = some 10 := by
      rw [hlast]; exact fun hcontra => hc (Option.some.inj hcontra)
    rw [if_pos hc, happ, if_neg hne]

theorem output_format_fit_witness :
    writeEvents buffer.mk0 (strBytes "2026.10.11 00:00:00.00 ") InfoLevel
        (strBytes "LogInfo")
      = [Event.write (if (strBytes "2026.10.11 00:00:00.00 "
            ++ levelStrings InfoLevel ++ strBytes "LogInfo").getLast? = some 10
          then strBytes "2026.10.11 00:00:00.00 " ++ levelStrings InfoLevel
            ++ strBytes "LogInfo"
          else (strBytes "2026.10.11 00:00:00.00 " ++ levelStrings InfoLevel
            ++ strBytes "LogInfo") ++ strBytes "\n")] :=
  output_format_fit buffer.mk0 (strBytes "2026.10.11 00:00:00.00 ") InfoLevel
    (strBytes "LogInfo") buffer.wf_mk0 (by decide) (by decide)

/-- Claim C2, original form, refuted: for a payload of the full buffer size
the record handed to the sink is not timestamp ++ level string ++ payload ++
newline — the composed record is truncated to the 4096-byte capacity. -/
theorem output_format_counterexample :
    writeEvents buffer.mk0 (strBytes "2026.10.11 00:00:00.00 ") FatalLevel
        bigPayload
      ≠ [Event.write ((strBytes "2026.10.11 00:00:00.00 "
          ++ levelStrings FatalLevel ++ bigPayload) ++ strBytes "\n")] := by
  intro h
  have hlen := writeEvents_write_length _ _ _ _ _ buffer.wf_mk0 h
  have h23 : (strBytes "2026.10.11 00:00:00.00 ").length = 23 := by decide
  have h7 : (levelStrings FatalLevel).length = 7 := by decide
  have h1 : (strBytes "\n").length = 1 := by decide
  simp only [List.length_append, h23, h7, h1, bigPayload,
    List.length_replicate] at hlen
  omega

/-- Claim C3: `append` copies exactly `min (len data) (capacity - pos)` bytes
at the cursor, advances the cursor by that amount, and never grows the
backing array; and the `TestBuffer` scenario — `defaulBufferSize - 1` one-byte
appends of `"0"` then an append of `"12"` — leaves `"00001"` as the last five
bytes of `get()`. -/
theorem append_spec_and_test :
    (∀ (b : buffer) (data : List Nat), b.wf →
      (b.append data).pos = b.pos + min data.length (defaulBufferSize - b.pos) ∧
      (b.append data).get = b.get ++ data.take (defaulBufferSize - b.pos) ∧
      (b.append data).buf.length = b.buf.length) ∧
    testBuffer.get.drop (defaulBufferSize - 5) = strBytes "00001" := by
  constructor
  · intro b data hb
    refine ⟨buffer.append_pos b data hb.2, buffer.append_get b data hb, ?_⟩
    rw [(buffer.append_wf b data hb).1, hb.1]
  · exact testBuffer_last5

theorem append_spec_and_test_witness :
    (buffer.mk0.append (strBytes "0")).pos
      = buffer.mk0.pos
        + min (strBytes "0").length (defaulBufferSize - buffer.mk0.pos) :=
  (append_spec_and_test.1 buffer.mk0 (strBytes "0") buffer.wf_mk0).1

/-- Claim C4: `SetLevel` errors on any value outside the six levels and then
leaves the threshold unchanged; on each of the six levels it succeeds and
stores the value as the new threshold. -/
theorem setLevel_spec (l : Logger) (v : Nat) :
    (¬ v ≤ 5 → (SetLevel l v).1.isSome ∧ (SetLevel l v).2 = l) ∧
    (v ≤ 5 → (SetLevel l v).1 = none ∧
      (SetLevel l v).2 = { l with currentLevel := v }) := by
  constructor
  · intro hv
    have hmap : levelStringsMap v = none := by
      unfold levelStringsMap FatalLevel ErrorLevel WarnLevel InfoLevel
        DebugLevel TraceLevel
      rw [if_neg (by omega), if_neg (by omega), if_neg (by omega),
        if_neg (by omega), if_neg (by omega), if_neg (by omega)]
    unfold SetLevel
    rw [hmap]
    exact ⟨rfl, rfl⟩
  · intro hv
    interval_cases v <;> exact ⟨rfl, rfl⟩

theorem setLevel_spec_witness :
    ((SetLevel sampleLogger 255).1.isSome
      ∧ (SetLevel sampleLogger 255).2 = sampleLogger) ∧
    ((SetLevel sampleLogger DebugLevel).1 = none ∧
      (SetLevel sampleLogger DebugLevel).2
        = { sampleLogger with currentLevel := DebugLevel }) :=
  ⟨(setLevel_spec sampleLogger 255).1 (by decide),
   (setLevel_spec sampleLogger DebugLevel).2 (by decide)⟩

/-- Claim C5: when opening the configured path fails, `Reopen` returns the
error, the logger state (previous handle and sink target) is unchanged, and
no handle is closed — rotation is all-or-nothing. -/
theorem reopen_failure_spec (l : Logger) :
    (Reopen l none).2.2.isSome ∧ (Reopen l none).2.1 = l ∧
    (Reopen l none).1 = [RotEvent.openFailed] :=
  ⟨rfl, rfl, rfl⟩

/-- Claim C6: a successful `Reopen` opens the new handle, redirects the sink
to it, and only then closes the previous handle, in that order; afterwards the
sink's visible handle is the newly opened one. -/
theorem reopen_success_order (l : Logger) (f : Nat) :
    (Reopen l (some f)).2.2 = none ∧
    (Reopen l (some f)).2.1.sinkTarget = f ∧
    (Reopen l (some f)).2.1.file = f ∧
    (Reopen l (some f)).1
      = [RotEvent.openOk f, RotEvent.resetSink f, RotEvent.closeFile l.file] :=
  ⟨rfl, rfl, rfl, rfl⟩

/-- Claim C7: the pool is seeded with indices `0..N-1`; `output` preserves the
invariant that checked-out indices and channel contents partition all `N`
indices; each acquired index is released exactly once in every trace; and the
invariant yields disjointness and the total count `N`. -/
theorem pool_invariant_spec :
    (∀ n, (Pool.init n).channel = List.range n ∧
      (Pool.init n).checkedOut = [] ∧ Pool.inv n (Pool.init n)) ∧
    (∀ n (l : Logger) (p : Pool) (slot : buffer) (level : Nat)
        (data : List Nat),
      Pool.inv n p → Pool.inv n (output l p slot level data).2) ∧
    (∀ (l : Logger) (p : Pool) (slot : buffer) (level : Nat) (data : List Nat)
        (i : Nat),
      (output l p slot level data).1.count (Event.acquire i)
        = (output l p slot level data).1.count (Event.release i) ∧
      (output l p slot level data).1.count (Event.acquire i) ≤ 1) ∧
    (∀ n (p : Pool), Pool.inv n p →
      p.channel.Nodup ∧ p.checkedOut.Nodup ∧
      (∀ i, i ∈ p.channel → i ∉ p.checkedOut) ∧
      p.channel.length + p.checkedOut.length = n) := by
  refine ⟨?_, ?_, ?_, ?_⟩
  · intro n
    refine ⟨rfl, rfl, ?_⟩
    unfold Pool.inv Pool.init
    simp
  · intro n l p slot level data h
    exact output_inv n l p slot level data h
  · intro l p slot level data i
    exact output_count_balance l p slot level data i
  · intro n p h
    exact inv_disjoint n p h

theorem pool_invariant_spec_witness :
    Pool.inv 3 (output sampleLogger (Pool.init 3) buffer.mk0 ErrorLevel
      (strBytes "LogError")).2 :=
  pool_invariant_spec.2.1 3 sampleLogger (Pool.init 3) buffer.mk0 ErrorLevel
    (strBytes "LogError") (by unfold Pool.inv; decide)

/-- Claim C8: the six level constants are strictly increasing from Fatal to
Trace (larger value = less severe), and a newly constructed logger has the
`InfoLevel` threshold. -/
theorem level_order_default :
    FatalLevel < ErrorLevel ∧ ErrorLevel < WarnLevel ∧ WarnLevel < InfoLevel ∧
    InfoLevel < DebugLevel ∧ DebugLevel < TraceLevel ∧
    ∀ (config : LoggerConfig) (f : Nat) (now : List Nat),
      ∃ lg rest, New config (some f) now = some (lg, rest) ∧
        lg.currentLevel = InfoLevel := by
  refine ⟨by decide, by decide, by decide, by decide, by decide, ?_⟩
  intro config f now
  exact ⟨_, _, rfl, rfl⟩

/-- Claim C9: for the six levels the composed buffer is non-empty when the
trailing-newline check runs — the level string is non-empty — so the last-byte
index is valid and the call always reaches the sink write. -/
theorem compose_nonempty_safe (slot : buffer) (ts : List Nat) (level : Nat)
    (data : List Nat) (hslot : slot.wf) (hlevel : level ≤ 5) :
    0 < (composeBuffer slot ts level data).get.length ∧
    ∃ bs, writeEvents slot ts level data = [Event.write bs] := by
  have hwf := composeBuffer_wf slot ts level data hslot
  constructor
  · rw [buffer.get_length _ hwf]
    exact composeBuffer_pos_pos slot ts level data hslot hlevel
  · exact writeEvents_eq_write slot ts level data hslot hlevel

theorem compose_nonempty_safe_witness :
    0 < (composeBuffer buffer.mk0 (strBytes "t") TraceLevel []).get.length :=
  (compose_nonempty_safe buffer.mk0 (strBytes "t") TraceLevel []
    buffer.wf_mk0 (by decide)).1

/-- Claim C10: every successful `New`, for every configuration, redirects the
standard library's global log output to this logger's writer. -/
theorem new_redirects_global_log (config : LoggerConfig) (f : Nat)
    (now : List Nat) :
    ∃ lg pool effs, New config (some f) now = some (lg, pool, effs) ∧
      SideEffect.setGlobalLogOutput ∈ effs := by
  refine ⟨_, _, _, rfl, ?_⟩
  simp

end GoLogger
